import Mathlib

set_option linter.unusedVariables false

/-! Shallow embedding of src/dockerfiles/trainer_downloader.py.

Filesystem state is a pair of path lists (directories and plain files).
External effects (repository listings, HTTP requests, single-file
downloads, snapshot downloads, moves, copies) are recorded in an
operation trace. The remote world is an environment giving each
repository a listing and each URL an HTTP status. The collaborator
downloads themselves (hf_hub_download, snapshot_download) are modelled
as always succeeding: the properties under study concern the dispatch,
selection and caching logic built around them. -/

/-- One entry of a repository listing, as produced by list_repo_tree:
a path and an optional size in bytes. Entries lacking a size attribute,
or whose size is None, are modelled with size none. -/
structure RemoteFileEntry where
  path : String
  size : Option Nat
deriving DecidableEq

/-- Filesystem model: the set of existing directory paths and the set of
existing plain-file paths, as lists. -/
structure Fs where
  dirs : List String
  files : List String
deriving DecidableEq

/-- os.path.exists: the path is a known directory or a known file. -/
def pathExists (fs : Fs) (p : String) : Bool :=
  fs.dirs.contains p || fs.files.contains p

/-- os.makedirs with exist_ok=True: record the directory when absent. -/
def Fs.makedirs (fs : Fs) (d : String) : Fs :=
  if fs.dirs.contains d then fs else ⟨d :: fs.dirs, fs.files⟩

/-- Creation or overwrite of a plain file at a path: the target of
open(..., wb), of shutil.move and of shutil.copy. -/
def Fs.writeFile (fs : Fs) (p : String) : Fs :=
  if fs.files.contains p then fs else ⟨fs.dirs, p :: fs.files⟩

/-- External operations, recorded in program order. listRepo, hfDownload,
snapshotDownload and httpGet touch the network; moveFile and copyFile are
local. -/
inductive Op where
  | listRepo (repoId : String)
  | hfDownload (repoId filename localDir : String)
  | snapshotDownload (repoId repoType localDir : String)
  | httpGet (url : String)
  | moveFile (src dst : String)
  | copyFile (src dst : String)
deriving DecidableEq

/-- True exactly on the operations that touch the network. -/
def Op.isNetwork : Op → Bool
  | .listRepo _ => true
  | .hfDownload _ _ _ => true
  | .snapshotDownload _ _ _ => true
  | .httpGet _ => true
  | .moveFile _ _ => false
  | .copyFile _ _ => false

/-- True exactly on the single-file hub downloads. -/
def Op.isHfDownload : Op → Bool
  | .hfDownload _ _ _ => true
  | _ => false

/-- Exceptions the script can raise on the paths under study:
downloadFailed models the Exception raised on a non-200 HTTP status,
noQualifyingFile models the FileNotFoundError of download_flux_unet, and
unboundLocal models the UnboundLocalError raised when
download_text_dataset returns a never-assigned variable. -/
inductive DlError where
  | downloadFailed (status : Nat)
  | noQualifyingFile (repoId : String)
  | unboundLocal
deriving DecidableEq

/-- The remote world: the file listing of each model or dataset
repository, and the HTTP status answered for each URL. -/
structure Env where
  listing : String → List RemoteFileEntry
  httpStatus : String → Nat

deriving instance DecidableEq for Except

/-- Whether the first string starts with the second, computed on the
character lists so that it reduces structurally. -/
def strStartsWith (s pre : String) : Bool := pre.data.isPrefixOf s.data

/-- Whether the first string ends with the second, computed on the
character lists so that it reduces structurally. -/
def strEndsWith (s suf : String) : Bool := suf.data.isSuffixOf s.data

/-- Python str.replace for a single-character pattern: every occurrence
of the character is replaced by the given string. -/
def replaceChar (c : Char) (repl : String) (s : String) : String :=
  String.mk ((s.data.map (fun a => if a = c then repl.data else [a])).flatten)

/-- repo_id.replace with slash and a double dash, the sanitization used
for cache directory names. -/
def sanDash (s : String) : String := replaceChar '/' "--" s

/-- repo_id.replace with slash and an underscore, the sanitization used
for the downloaded weights filename. -/
def sanU (s : String) : String := replaceChar '/' "_" s

/-- os.path.expanduser: a leading tilde is replaced by the home
directory; any other path is returned unchanged. -/
def expanduser (p : String) : String :=
  if strStartsWith p "~" then "/root" ++ String.mk (p.data.drop 1) else p

/-- os.path.join for two components: an absolute second component wins;
otherwise the components are joined with a single separator. -/
def pathJoin (a b : String) : String :=
  if strStartsWith b "/" then b
  else if a = "" then b
  else if strEndsWith a "/" then a ++ b
  else a ++ "/" ++ b

/-- The remainder of the character list after the first scheme marker,
the three characters colon slash slash, or none when no marker occurs. -/
def afterSchemeMark : List Char → Option (List Char)
  | ':' :: '/' :: '/' :: rest => some rest
  | _ :: rest => afterSchemeMark rest
  | [] => none

/-- The path component of urlparse: after the scheme marker the
authority extends to the first slash and the path runs from there up to
the query or fragment delimiter; without a scheme marker the whole text
up to a delimiter is the path. -/
def urlPath (url : String) : String :=
  let rest :=
    match afterSchemeMark url.data with
    | some r => r.dropWhile (fun c => c != '/')
    | none => url.data
  String.mk (rest.takeWhile (fun c => c != '?' && c != '#'))

/-- Splitting a character list at every occurrence of a separator
character; the result is nonempty and concatenating it with the
separator restores the input. -/
def splitOnChar (c : Char) : List Char → List (List Char)
  | [] => [[]]
  | a :: rest =>
      let r := splitOnChar c rest
      if a = c then [] :: r
      else
        match r with
        | [] => [[a]]
        | h :: t => (a :: h) :: t

/-- os.path.basename: the component after the last separator. -/
def basename (p : String) : String :=
  String.mk ((splitOnChar '/' p.data).getLastD [])

/-- The FileFormat enumeration of the source, with its string values. -/
inductive FileFormat where
  | CSV | JSON | HF | S3
deriving DecidableEq

/-- The string value of each FileFormat member. -/
def FileFormat.value : FileFormat → String
  | .CSV => "csv"
  | .JSON => "json"
  | .HF => "hf"
  | .S3 => "s3"

/-- The TaskType enumeration of the source, with its string values. -/
inductive TaskType where
  | INSTRUCTTEXTTASK | IMAGETASK | DPOTASK | GRPOTASK | CHATTASK
deriving DecidableEq

/-- The string value of each TaskType member. -/
def TaskType.value : TaskType → String
  | .INSTRUCTTEXTTASK => "InstructTextTask"
  | .IMAGETASK => "ImageTask"
  | .DPOTASK => "DpoTask"
  | .GRPOTASK => "GrpoTask"
  | .CHATTASK => "ChatTask"

/-- One gibibyte, 1024 * 1024 * 1024 bytes. -/
def giB : Nat := 1024 * 1024 * 1024

/-- The large-model-weights threshold of is_safetensors_available:
check_size_in_gb = 6, so 6 GiB in bytes. -/
def totalCheckSize : Nat := 6 * 1024 * 1024 * 1024

/-- The huge-single-file threshold hardcoded in download_flux_unet:
10 GiB in bytes. -/
def hugeCheckSize : Nat := 10 * 1024 * 1024 * 1024

/-- The size of an entry once the filters have established it is
present; entries without a size never qualify. -/
def sizeD (f : RemoteFileEntry) : Nat := f.size.getD 0

/-- The per-entry filter shared by is_safetensors_available and the loop
of download_flux_unet: the entry has a size, its path ends with the
.safetensors suffix, and its size strictly exceeds the threshold. -/
def qualifies (threshold : Nat) (f : RemoteFileEntry) : Bool :=
  match f.size with
  | some s => strEndsWith f.path ".safetensors" && decide (s > threshold)
  | none => false

/-- The selection loop of is_safetensors_available: walk the listing
keeping the qualifying entry of strictly largest size; on equal sizes the
earlier entry is kept, since the update condition is a strict
comparison. -/
def selectLoop (threshold : Nat) (largest : Option RemoteFileEntry) :
    List RemoteFileEntry → Option RemoteFileEntry
  | [] => largest
  | f :: rest =>
      if qualifies threshold f then
        match largest with
        | none => selectLoop threshold (some f) rest
        | some g =>
            if sizeD g < sizeD f then selectLoop threshold (some f) rest
            else selectLoop threshold (some g) rest
      else selectLoop threshold largest rest

/-- is_safetensors_available: list the repository, run the selection
loop at the 6 GiB threshold, and return whether a qualifying file exists
together with its path. The listing call is the single network
operation. -/
def is_safetensors_available (repo_id : String) (env : Env) :
    (Bool × Option String) × List Op :=
  let files_metadata := env.listing repo_id
  match selectLoop totalCheckSize none files_metadata with
  | some f => ((true, some f.path), [Op.listRepo repo_id])
  | none => ((false, none), [Op.listRepo repo_id])

/-- The fixed fresh temporary directory stands for the
tempfile.TemporaryDirectory of download_from_huggingface; it is removed
with its contents when the context exits, so only the moved file
survives in the filesystem model. -/
def tempDirName : String := "/tmp/hf_tmpdir"

/-- The final destination file of download_from_huggingface: the
expanded local directory joined with the sanitized repo id and the
.safetensors suffix. Note the name depends on the repo id only, not on
the requested filename. -/
def hfFinalPath (local_dir repo_id : String) : String :=
  pathJoin (expanduser local_dir) (sanU repo_id ++ ".safetensors")

/-- download_from_huggingface: expand the directory, compute the final
path, create the directory, and either skip (final path already
present) or download into the temporary directory and move the file to
the final path. The try block reraises any exception unchanged, so it is
semantically transparent and the modelled download is total. -/
def download_from_huggingface (repo_id filename local_dir : String)
    (fs : Fs) : String × Fs × List Op :=
  let ld := expanduser local_dir
  let final_path := hfFinalPath local_dir repo_id
  let fs1 := fs.makedirs ld
  if pathExists fs1 final_path then (final_path, fs1, [])
  else
    (final_path, fs1.writeFile final_path,
      [Op.hfDownload repo_id filename tempDirName,
       Op.moveFile (pathJoin tempDirName filename) final_path])

/-- The local file path computed by download_s3_file: the basename of
the URL path, placed in the explicit save path (inside it when it is a
directory, at it otherwise) or in the temporary directory. -/
def s3LocalPath (file_url : String) (save_path : Option String)
    (tmp_dir : String) (fs : Fs) : String :=
  let file_name := basename (urlPath file_url)
  match save_path with
  | some sp => if fs.dirs.contains sp then pathJoin sp file_name else sp
  | none => pathJoin tmp_dir file_name

/-- download_s3_file: one HTTP GET; on status 200 the body is written to
the computed local path which is returned, on any other status an
exception carrying the status is raised and nothing is written. -/
def download_s3_file (file_url : String) (save_path : Option String)
    (tmp_dir : String) (env : Env) (fs : Fs) :
    Except DlError String × Fs × List Op :=
  let local_file_path := s3LocalPath file_url save_path tmp_dir fs
  let status := env.httpStatus file_url
  if status = 200 then
    (Except.ok local_file_path, fs.writeFile local_file_path,
      [Op.httpGet file_url])
  else
    (Except.error (DlError.downloadFailed status), fs, [Op.httpGet file_url])

/-- download_text_dataset: create the dataset directory, then branch on
the file format. For s3, the cache path is the task id with the
_train_data.json suffix inside the dataset directory; when absent the
file is fetched to the temporary location and copied in. For hf, the
cache path is the sanitized repository id inside the dataset directory;
when absent a full dataset snapshot is downloaded into it. For every
other format (csv and json included) the function falls through both
branches and returns the never-assigned input_data_path variable, which
raises UnboundLocalError. -/
def download_text_dataset (task_id dataset_url file_format dataset_dir : String)
    (env : Env) (fs : Fs) :
    Except DlError (String × String) × Fs × List Op :=
  let fs0 := fs.makedirs dataset_dir
  if file_format = FileFormat.S3.value then
    let dataset_filename := task_id ++ "_train_data.json"
    let input_data_path := pathJoin dataset_dir dataset_filename
    if pathExists fs0 input_data_path then
      (Except.ok (input_data_path, file_format), fs0, [])
    else
      match download_s3_file dataset_url none "/tmp" env fs0 with
      | (Except.ok local_path, fs1, t1) =>
          (Except.ok (input_data_path, file_format),
           fs1.writeFile input_data_path,
           t1 ++ [Op.copyFile local_path input_data_path])
      | (Except.error e, fs1, t1) => (Except.error e, fs1, t1)
  else if file_format = FileFormat.HF.value then
    let repo_name := sanDash dataset_url
    let input_data_path := pathJoin dataset_dir repo_name
    if pathExists fs0 input_data_path then
      (Except.ok (input_data_path, file_format), fs0, [])
    else
      (Except.ok (input_data_path, file_format),
       fs0.makedirs input_data_path,
       [Op.snapshotDownload dataset_url "dataset" input_data_path])
  else
    (Except.error DlError.unboundLocal, fs0, [])

/-- The loop of download_flux_unet: for each listing entry with a size,
a .safetensors suffix and a size over 10 GiB, record its path and call
download_from_huggingface on it, keeping the returned local path. The
accumulator carries the last assigned pair of file_path and
local_path. -/
def fluxLoop (repo_id output_dir : String) :
    List RemoteFileEntry → Option (String × String) → Fs → List Op →
    Option (String × String) × Fs × List Op
  | [] => fun acc fs tr => (acc, fs, tr)
  | f :: rest => fun acc fs tr =>
      if qualifies hugeCheckSize f then
        let r := download_from_huggingface repo_id f.path output_dir fs
        fluxLoop repo_id output_dir rest (some (f.path, r.1)) r.2.1 (tr ++ r.2.2)
      else fluxLoop repo_id output_dir rest acc fs tr

/-- download_flux_unet: list the repository, run the loop over every
entry, and raise FileNotFoundError when no entry qualified; otherwise
return the last local path produced by the loop. -/
def download_flux_unet (repo_id output_dir : String) (env : Env) (fs : Fs) :
    Except DlError String × Fs × List Op :=
  let files_metadata := env.listing repo_id
  match fluxLoop repo_id output_dir files_metadata none fs [Op.listRepo repo_id] with
  | (some (_file_path, local_path), fs1, tr) => (Except.ok local_path, fs1, tr)
  | (none, fs1, tr) => (Except.error (DlError.noQualifyingFile repo_id), fs1, tr)

/-- The cache directory of download_base_model and of
download_axolotl_base_model: the save root joined with the repo id
sanitized with double dashes. -/
def modelSavePath (save_root repo_id : String) : String :=
  pathJoin save_root (sanDash repo_id)

/-- download_base_model: return the cache directory when it exists;
otherwise consult is_safetensors_available and either download the
selected single file (passing the cache directory as its destination) or
fall back to a full model snapshot into the cache directory. The source
condition is the truthiness of the pair; a selected path always ends in
.safetensors and hence is never the empty string, so matching the pair
(true, some path) is faithful. -/
def download_base_model (repo_id save_root : String) (env : Env) (fs : Fs) :
    Except DlError String × Fs × List Op :=
  let save_path := modelSavePath save_root repo_id
  if pathExists fs save_path then (Except.ok save_path, fs, [])
  else
    match is_safetensors_available repo_id env with
    | ((true, some safetensors_path), t0) =>
        let r := download_from_huggingface repo_id safetensors_path save_path fs
        (Except.ok r.1, r.2.1, t0 ++ r.2.2)
    | (_, t0) =>
        (Except.ok save_path, fs.makedirs save_path,
         t0 ++ [Op.snapshotDownload repo_id "model" save_path])

/-- download_axolotl_base_model: return the cache directory when it
exists; otherwise download a full model snapshot into it,
unconditionally, with no listing and no selection. -/
def download_axolotl_base_model (repo_id save_dir : String) (env : Env)
    (fs : Fs) : Except DlError String × Fs × List Op :=
  let model_dir := modelSavePath save_dir repo_id
  if pathExists fs model_dir then (Except.ok model_dir, fs, [])
  else
    (Except.ok model_dir, fs.makedirs model_dir,
     [Op.snapshotDownload repo_id "model" model_dir])

/-- The model-fetch dispatch of main: the ImageTask branch calls
download_base_model, every other branch calls
download_axolotl_base_model, both with the fixed /cache/models root. -/
def mainModelFetch (task_type model : String) (env : Env) (fs : Fs) :
    Except DlError String × Fs × List Op :=
  if task_type = TaskType.IMAGETASK.value then
    download_base_model model "/cache/models" env fs
  else
    download_axolotl_base_model model "/cache/models" env fs

/-! Basic facts about the filesystem model. -/

/-- makedirs is the identity when the directory is already recorded. -/
theorem Fs.makedirs_of_contains {fs : Fs} {d : String}
    (h : fs.dirs.contains d = true) : fs.makedirs d = fs := by
  unfold Fs.makedirs
  rw [h]
  simp

/-- After makedirs the directory is recorded. -/
theorem Fs.contains_makedirs_self (fs : Fs) (d : String) :
    (fs.makedirs d).dirs.contains d = true := by
  unfold Fs.makedirs
  split
  · assumption
  · simp [List.contains]

/-- makedirs leaves the file set unchanged. -/
theorem Fs.makedirs_files (fs : Fs) (d : String) :
    (fs.makedirs d).files = fs.files := by
  unfold Fs.makedirs
  split <;> rfl

/-- writeFile leaves the directory set unchanged. -/
theorem Fs.writeFile_dirs (fs : Fs) (p : String) :
    (fs.writeFile p).dirs = fs.dirs := by
  unfold Fs.writeFile
  split <;> rfl

/-- After writeFile the file path exists. -/
theorem Fs.pathExists_writeFile_self (fs : Fs) (p : String) :
    pathExists (fs.writeFile p) p = true := by
  unfold Fs.writeFile
  by_cases h : fs.files.contains p = true
  · rw [if_pos h]
    unfold pathExists
    rw [h, Bool.or_true]
  · rw [if_neg h]
    unfold pathExists
    show (fs.dirs.contains p || (p :: fs.files).contains p) = true
    have hc : (p :: fs.files).contains p = true := by simp [List.contains]
    rw [hc, Bool.or_true]

/-- Repeating makedirs with the same directory changes nothing more. -/
theorem Fs.makedirs_makedirs (fs : Fs) (d : String) :
    (fs.makedirs d).makedirs d = fs.makedirs d :=
  Fs.makedirs_of_contains (Fs.contains_makedirs_self fs d)

/-! The selection loop of is_safetensors_available, related to a
first-seen-maximum recursion over the filtered listing. -/

/-- Keep the later candidate only when it is strictly larger; on a tie
or a smaller candidate the earlier entry wins. -/
def combineE (a : RemoteFileEntry) : Option RemoteFileEntry → RemoteFileEntry
  | none => a
  | some g => if sizeD a < sizeD g then g else a

/-- The first entry of maximal size in a list, as a structural
recursion: the head survives unless a strictly larger entry occurs
later. -/
def firstMax : List RemoteFileEntry → Option RemoteFileEntry
  | [] => none
  | f :: rest => some (combineE f (firstMax rest))

/-- Unfolding equation for the combination on none. -/
theorem combineE_none (a : RemoteFileEntry) : combineE a none = a := rfl

/-- Unfolding equation for the combination on some. -/
theorem combineE_some (a g : RemoteFileEntry) :
    combineE a (some g) = if sizeD a < sizeD g then g else a := rfl

/-- Unfolding equation for the first maximum on a cons. -/
theorem firstMax_cons (f : RemoteFileEntry) (l : List RemoteFileEntry) :
    firstMax (f :: l) = some (combineE f (firstMax l)) := rfl

/-- The combination never shrinks below its left argument. -/
theorem sizeD_le_combineE (a : RemoteFileEntry) (m : Option RemoteFileEntry) :
    sizeD a ≤ sizeD (combineE a m) := by
  cases m with
  | none => exact Nat.le_refl _
  | some g =>
      rw [combineE_some]
      by_cases h : sizeD a < sizeD g
      · rw [if_pos h]
        omega
      · rw [if_neg h]

/-- The selection loop seeded with an accumulator computes the
combination of the accumulator with the first maximum of the filtered
remainder. -/
theorem selectLoop_some_eq (T : Nat) (a : RemoteFileEntry)
    (l : List RemoteFileEntry) :
    selectLoop T (some a) l = some (combineE a (firstMax (l.filter (qualifies T)))) := by
  induction l generalizing a with
  | nil => simp [selectLoop, firstMax, combineE]
  | cons f rest ih =>
      by_cases hq : qualifies T f = true
      · rw [List.filter_cons_of_pos hq, firstMax_cons]
        unfold selectLoop
        rw [if_pos hq]
        show (if sizeD a < sizeD f then selectLoop T (some f) rest
              else selectLoop T (some a) rest) = _
        by_cases hlt : sizeD a < sizeD f
        · rw [if_pos hlt, ih]
          have hle := sizeD_le_combineE f (firstMax (rest.filter (qualifies T)))
          rw [combineE_some, if_pos (by omega)]
        · rw [if_neg hlt, ih]
          congr 1
          cases hm : firstMax (rest.filter (qualifies T)) with
          | none =>
              simp only [combineE_none, combineE_some]
              rw [if_neg hlt]
          | some g =>
              simp only [combineE_some]
              by_cases hfg : sizeD f < sizeD g
              · rw [if_pos hfg]
              · rw [if_neg hfg, if_neg hlt, if_neg (show ¬ sizeD a < sizeD g by omega)]
      · rw [List.filter_cons_of_neg hq]
        unfold selectLoop
        rw [if_neg hq]
        exact ih a

/-- The selection loop seeded empty computes the first maximum of the
filtered listing. -/
theorem selectLoop_none_eq (T : Nat) (l : List RemoteFileEntry) :
    selectLoop T none l = firstMax (l.filter (qualifies T)) := by
  induction l with
  | nil => simp [selectLoop, firstMax]
  | cons f rest ih =>
      by_cases hq : qualifies T f = true
      · rw [List.filter_cons_of_pos hq]
        show selectLoop T none (f :: rest) = _
        unfold selectLoop
        rw [if_pos hq]
        show selectLoop T (some f) rest = _
        rw [selectLoop_some_eq]
        rfl
      · rw [List.filter_cons_of_neg (by simpa using hq)]
        show selectLoop T none (f :: rest) = _
        unfold selectLoop
        rw [if_neg (by simpa using hq)]
        exact ih

/-- The first maximum is none exactly on the empty list. -/
theorem firstMax_eq_none (F : List RemoteFileEntry) :
    firstMax F = none ↔ F = [] := by
  cases F <;> simp [firstMax]

/-- A first maximum splits its list into a strictly smaller prefix, the
returned entry, and a never-strictly-larger remainder. -/
theorem firstMax_decomp (F : List RemoteFileEntry) (e : RemoteFileEntry)
    (h : firstMax F = some e) :
    ∃ F₁ F₂, F = F₁ ++ e :: F₂ ∧ (∀ x ∈ F₁, sizeD x < sizeD e) ∧
      (∀ x ∈ F₂, sizeD x ≤ sizeD e) := by
  induction F generalizing e with
  | nil => simp [firstMax] at h
  | cons f rest ih =>
      unfold firstMax at h
      cases hm : firstMax rest with
      | none =>
          have hrest : rest = [] := (firstMax_eq_none rest).mp hm
          rw [hm] at h
          have he : e = f := by
            subst hrest
            simpa [combineE] using h.symm
          subst he
          exact ⟨[], [], by simp [hrest], by simp, by simp [hrest]⟩
      | some g =>
          rw [hm] at h
          obtain ⟨R₁, R₂, hR, hlt, hle⟩ := ih g hm
          by_cases hfg : sizeD f < sizeD g
          · have he : e = g := by simpa [combineE, hfg] using h.symm
            subst he
            refine ⟨f :: R₁, R₂, by simp [hR], ?_, hle⟩
            intro x hx
            rcases List.mem_cons.mp hx with hx | hx
            · subst hx; exact hfg
            · exact hlt x hx
          · have he : e = f := by simpa [combineE, hfg] using h.symm
            subst he
            refine ⟨[], rest, by simp, by simp, ?_⟩
            intro x hx
            rw [hR] at hx
            rcases List.mem_append.mp hx with hx | hx
            · have := hlt x hx
              omega
            · rcases List.mem_cons.mp hx with hx | hx
              · subst hx; omega
              · have := hle x hx
                omega

/-- C3: for every repository listing, the selection loop of
is_safetensors_available returns none exactly when no entry both ends in
the .safetensors suffix and strictly exceeds the threshold; and when it
returns an entry, that entry qualifies, every qualifying entry seen
before it is strictly smaller, and every qualifying entry after it is no
larger — so the result is the maximal qualifying entry, first-seen
winning on equal sizes. -/
theorem selectLoop_first_seen_max (T : Nat) (l : List RemoteFileEntry) :
    (selectLoop T none l = none ↔ l.filter (qualifies T) = []) ∧
    (∀ e, selectLoop T none l = some e →
      qualifies T e = true ∧
      ∃ F₁ F₂, l.filter (qualifies T) = F₁ ++ e :: F₂ ∧
        (∀ x ∈ F₁, sizeD x < sizeD e) ∧ (∀ x ∈ F₂, sizeD x ≤ sizeD e)) := by
  constructor
  · rw [selectLoop_none_eq]
    exact firstMax_eq_none _
  · intro e he
    rw [selectLoop_none_eq] at he
    obtain ⟨F₁, F₂, hF, hlt, hle⟩ := firstMax_decomp _ e he
    refine ⟨?_, F₁, F₂, hF, hlt, hle⟩
    have : e ∈ l.filter (qualifies T) := by
      rw [hF]
      exact List.mem_append.mpr (Or.inr (List.mem_cons_self _ _))
    exact (List.mem_filter.mp this).2

/-- Witness for C3 at a concrete listing with a tie: among three
qualifying entries of sizes 8, 9 and 9 over threshold 5, the first entry
of maximal size 9 is returned, with the size-8 entry before it and the
other size-9 entry after it. -/
theorem selectLoop_first_seen_max_witness :
    qualifies 5 (⟨"b.safetensors", some 9⟩ : RemoteFileEntry) = true ∧
    ∃ F₁ F₂,
      ([⟨"a.safetensors", some 8⟩, ⟨"b.safetensors", some 9⟩,
        ⟨"c.safetensors", some 9⟩] : List RemoteFileEntry).filter (qualifies 5) =
        F₁ ++ (⟨"b.safetensors", some 9⟩ : RemoteFileEntry) :: F₂ ∧
      (∀ x ∈ F₁, sizeD x < sizeD (⟨"b.safetensors", some 9⟩ : RemoteFileEntry)) ∧
      (∀ x ∈ F₂, sizeD x ≤ sizeD (⟨"b.safetensors", some 9⟩ : RemoteFileEntry)) :=
  (selectLoop_first_seen_max 5
      [⟨"a.safetensors", some 8⟩, ⟨"b.safetensors", some 9⟩,
       ⟨"c.safetensors", some 9⟩]).2
    ⟨"b.safetensors", some 9⟩ (by decide)

/-! Rewriting lemmas for is_safetensors_available in terms of its
selection loop. -/

/-- When the loop selects an entry, is_safetensors_available reports it
after one listing call. -/
theorem is_safetensors_available_eq_some {repo_id : String} {env : Env}
    {e : RemoteFileEntry}
    (h : selectLoop totalCheckSize none (env.listing repo_id) = some e) :
    is_safetensors_available repo_id env =
      ((true, some e.path), [Op.listRepo repo_id]) := by
  simp only [is_safetensors_available]
  rw [h]

/-- When the loop selects nothing, is_safetensors_available reports the
absence after one listing call. -/
theorem is_safetensors_available_eq_none {repo_id : String} {env : Env}
    (h : selectLoop totalCheckSize none (env.listing repo_id) = none) :
    is_safetensors_available repo_id env =
      ((false, none), [Op.listRepo repo_id]) := by
  simp only [is_safetensors_available]
  rw [h]

/-- C1 (amended): for every TaskSpec whose task_type is not ImageTask,
the model fetch of the orchestrator is the axolotl base-model strategy:
it returns the cache path when present, and otherwise performs an
unconditional full snapshot download into the cache path, with no
repository listing and no File Selector run; the selective generic
strategy is applied only to the ImageTask branch. -/
theorem mainModelFetch_non_image_axolotl (tt model : String) (env : Env)
    (fs : Fs) (h : tt ≠ TaskType.IMAGETASK.value) :
    mainModelFetch tt model env fs =
      download_axolotl_base_model model "/cache/models" env fs ∧
    (pathExists fs (modelSavePath "/cache/models" model) = false →
      mainModelFetch tt model env fs =
        (Except.ok (modelSavePath "/cache/models" model),
         fs.makedirs (modelSavePath "/cache/models" model),
         [Op.snapshotDownload model "model" (modelSavePath "/cache/models" model)])) := by
  have h1 : mainModelFetch tt model env fs =
      download_axolotl_base_model model "/cache/models" env fs := by
    unfold mainModelFetch
    rw [if_neg h]
  refine ⟨h1, ?_⟩
  intro hp
  rw [h1]
  simp only [download_axolotl_base_model, hp, Bool.false_eq_true, if_false]

/-- Witness for the amended C1 at a concrete non-image task: the fetch
returns the cache path and the trace is a single unconditional snapshot
download. -/
theorem mainModelFetch_non_image_axolotl_witness :
    mainModelFetch "InstructTextTask" "org/model"
        ⟨fun _ => [], fun _ => 200⟩ ⟨["/cache/models"], []⟩ =
      (Except.ok (modelSavePath "/cache/models" "org/model"),
       Fs.makedirs ⟨["/cache/models"], []⟩ (modelSavePath "/cache/models" "org/model"),
       [Op.snapshotDownload "org/model" "model"
          (modelSavePath "/cache/models" "org/model")]) :=
  (mainModelFetch_non_image_axolotl "InstructTextTask" "org/model"
      ⟨fun _ => [], fun _ => 200⟩ ⟨["/cache/models"], []⟩ (by decide)).2 (by decide)

/-- C1 counterexample: for an InstructTextTask with an absent cache path
and a listing holding a 12 GiB safetensors file that qualifies at the
large-model-weights threshold, the model fetch performs a full snapshot
download without ever listing the repository, contradicting the claim
that selection is attempted first. -/
theorem mainModelFetch_non_image_counterexample :
    pathExists ⟨["/cache/models"], []⟩ (modelSavePath "/cache/models" "org/model") = false ∧
    qualifies totalCheckSize ⟨"model.safetensors", some (12 * giB)⟩ = true ∧
    (mainModelFetch "InstructTextTask" "org/model"
        ⟨fun _ => [⟨"model.safetensors", some (12 * giB)⟩], fun _ => 200⟩
        ⟨["/cache/models"], []⟩).2.2 =
      [Op.snapshotDownload "org/model" "model" "/cache/models/org--model"] ∧
    (mainModelFetch "InstructTextTask" "org/model"
        ⟨fun _ => [⟨"model.safetensors", some (12 * giB)⟩], fun _ => 200⟩
        ⟨["/cache/models"], []⟩).2.2.contains (Op.listRepo "org/model") = false :=
  ⟨by decide, by decide, by decide, by decide⟩

/-- C2 (code bug): for the csv and json formats the dataset fetch does
not return the source identifier as a local path; it raises
UnboundLocalError, because neither branch of download_text_dataset
assigns input_data_path for these formats. -/
theorem download_text_dataset_csv_json_unbound :
    download_text_dataset "t1" "/local/data.csv" FileFormat.CSV.value
        "/cache/datasets" ⟨fun _ => [], fun _ => 200⟩ ⟨["/cache/datasets"], []⟩ =
      (Except.error DlError.unboundLocal, ⟨["/cache/datasets"], []⟩, []) ∧
    download_text_dataset "t1" "/local/data.json" FileFormat.JSON.value
        "/cache/datasets" ⟨fun _ => [], fun _ => 200⟩ ⟨["/cache/datasets"], []⟩ =
      (Except.error DlError.unboundLocal, ⟨["/cache/datasets"], []⟩, []) :=
  ⟨by decide, by decide⟩

/-- C4: when the model cache path is absent, download_base_model
downloads exactly the selected single weights file if the listing holds
a qualifying .safetensors file over the threshold (trace: one listing,
one single-file download, one move), and otherwise downloads a full
snapshot of the repository into the cache path (trace: one listing, one
snapshot download). -/
theorem download_base_model_select_or_snapshot (repo_id save_root : String)
    (env : Env) (fs : Fs)
    (hmiss : pathExists fs (modelSavePath save_root repo_id) = false) :
    ((env.listing repo_id).filter (qualifies totalCheckSize) = [] →
      download_base_model repo_id save_root env fs =
        (Except.ok (modelSavePath save_root repo_id),
         fs.makedirs (modelSavePath save_root repo_id),
         [Op.listRepo repo_id,
          Op.snapshotDownload repo_id "model" (modelSavePath save_root repo_id)])) ∧
    (∀ e, selectLoop totalCheckSize none (env.listing repo_id) = some e →
      pathExists (fs.makedirs (expanduser (modelSavePath save_root repo_id)))
          (hfFinalPath (modelSavePath save_root repo_id) repo_id) = false →
      download_base_model repo_id save_root env fs =
        (Except.ok (hfFinalPath (modelSavePath save_root repo_id) repo_id),
         (fs.makedirs (expanduser (modelSavePath save_root repo_id))).writeFile
           (hfFinalPath (modelSavePath save_root repo_id) repo_id),
         [Op.listRepo repo_id, Op.hfDownload repo_id e.path tempDirName,
          Op.moveFile (pathJoin tempDirName e.path)
            (hfFinalPath (modelSavePath save_root repo_id) repo_id)])) := by
  constructor
  · intro hemp
    have hsel : selectLoop totalCheckSize none (env.listing repo_id) = none := by
      rw [selectLoop_none_eq, hemp]
      rfl
    simp only [download_base_model, hmiss, Bool.false_eq_true, if_false,
      is_safetensors_available_eq_none hsel]
    rfl
  · intro e he hfp
    simp only [download_base_model, hmiss, Bool.false_eq_true, if_false,
      is_safetensors_available_eq_some he, download_from_huggingface, hfp,
      if_false]
    rfl

/-- Witness for C4 on the selective branch: one 12 GiB qualifying file,
an absent cache path, and the result is the single-file download of that
file. -/
theorem download_base_model_select_or_snapshot_witness :
    download_base_model "org/model" "/cache/models"
        ⟨fun _ => [⟨"model.safetensors", some (12 * giB)⟩], fun _ => 200⟩
        ⟨["/cache/models"], []⟩ =
      (Except.ok (hfFinalPath (modelSavePath "/cache/models" "org/model") "org/model"),
       (Fs.makedirs ⟨["/cache/models"], []⟩
           (expanduser (modelSavePath "/cache/models" "org/model"))).writeFile
         (hfFinalPath (modelSavePath "/cache/models" "org/model") "org/model"),
       [Op.listRepo "org/model", Op.hfDownload "org/model" "model.safetensors" tempDirName,
        Op.moveFile (pathJoin tempDirName "model.safetensors")
          (hfFinalPath (modelSavePath "/cache/models" "org/model") "org/model")]) :=
  (download_base_model_select_or_snapshot "org/model" "/cache/models"
      ⟨fun _ => [⟨"model.safetensors", some (12 * giB)⟩], fun _ => 200⟩
      ⟨["/cache/models"], []⟩ (by decide)).2
    ⟨"model.safetensors", some (12 * giB)⟩ (by decide) (by decide)

/-! The loop of download_flux_unet. -/

/-- Unfolding equation of the loop on a qualifying head. -/
theorem fluxLoop_cons_pos {f : RemoteFileEntry}
    (hq : qualifies hugeCheckSize f = true) (repo_id output_dir : String)
    (rest : List RemoteFileEntry) (acc : Option (String × String)) (fs : Fs)
    (tr : List Op) :
    fluxLoop repo_id output_dir (f :: rest) acc fs tr =
      fluxLoop repo_id output_dir rest
        (some (f.path, (download_from_huggingface repo_id f.path output_dir fs).1))
        (download_from_huggingface repo_id f.path output_dir fs).2.1
        (tr ++ (download_from_huggingface repo_id f.path output_dir fs).2.2) := by
  show (if qualifies hugeCheckSize f = true then
          let r := download_from_huggingface repo_id f.path output_dir fs
          fluxLoop repo_id output_dir rest (some (f.path, r.1)) r.2.1 (tr ++ r.2.2)
        else fluxLoop repo_id output_dir rest acc fs tr) = _
  rw [if_pos hq]

/-- Unfolding equation of the loop on a non-qualifying head. -/
theorem fluxLoop_cons_neg {f : RemoteFileEntry}
    (hq : ¬ qualifies hugeCheckSize f = true) (repo_id output_dir : String)
    (rest : List RemoteFileEntry) (acc : Option (String × String)) (fs : Fs)
    (tr : List Op) :
    fluxLoop repo_id output_dir (f :: rest) acc fs tr =
      fluxLoop repo_id output_dir rest acc fs tr := by
  show (if qualifies hugeCheckSize f = true then
          let r := download_from_huggingface repo_id f.path output_dir fs
          fluxLoop repo_id output_dir rest (some (f.path, r.1)) r.2.1 (tr ++ r.2.2)
        else fluxLoop repo_id output_dir rest acc fs tr) = _
  rw [if_neg hq]

/-- The loop leaves the accumulator unset exactly when it started unset
and no entry qualifies at the 10 GiB threshold. -/
theorem fluxLoop_fst_none_iff (repo_id output_dir : String)
    (files : List RemoteFileEntry) :
    ∀ (acc : Option (String × String)) (fs : Fs) (tr : List Op),
    ((fluxLoop repo_id output_dir files acc fs tr).1 = none ↔
      (acc = none ∧ files.filter (qualifies hugeCheckSize) = [])) := by
  induction files with
  | nil =>
      intro acc fs tr
      simp [fluxLoop]
  | cons f rest ih =>
      intro acc fs tr
      by_cases hq : qualifies hugeCheckSize f = true
      · rw [List.filter_cons_of_pos hq, fluxLoop_cons_pos hq, ih]
        simp
      · rw [List.filter_cons_of_neg hq, fluxLoop_cons_neg hq, ih]

/-- Once the destination file exists and the output directory is
recorded, the loop changes neither the filesystem nor the trace: every
remaining qualifying entry is skipped by the single-file fetch, and the
accumulated local path stays the destination path. -/
theorem fluxLoop_saturated (repo_id output_dir : String)
    (files : List RemoteFileEntry) :
    ∀ (x : String) (fs : Fs) (tr : List Op),
    pathExists fs (hfFinalPath output_dir repo_id) = true →
    fs.dirs.contains (expanduser output_dir) = true →
    ∃ q, fluxLoop repo_id output_dir files
        (some (x, hfFinalPath output_dir repo_id)) fs tr =
      (some (q, hfFinalPath output_dir repo_id), fs, tr) := by
  induction files with
  | nil =>
      intro x fs tr hfp hld
      exact ⟨x, rfl⟩
  | cons f rest ih =>
      intro x fs tr hfp hld
      by_cases hq : qualifies hugeCheckSize f = true
      · rw [fluxLoop_cons_pos hq]
        have hdfh : download_from_huggingface repo_id f.path output_dir fs =
            (hfFinalPath output_dir repo_id, fs, []) := by
          simp [download_from_huggingface, Fs.makedirs_of_contains hld, hfp]
        rw [hdfh]
        rw [List.append_nil]
        exact ih f.path fs tr hfp hld
      · rw [fluxLoop_cons_neg hq]
        exact ih x fs tr hfp hld

/-- From an unset accumulator and an absent destination file, the loop
downloads exactly the first qualifying entry: the filesystem gains the
destination file and the trace gains one single-file download of that
entry followed by one move; every later qualifying entry is skipped. -/
theorem fluxLoop_first_download (repo_id output_dir : String)
    (files : List RemoteFileEntry) :
    ∀ (fs : Fs) (tr : List Op) (f : RemoteFileEntry)
      (rest : List RemoteFileEntry),
    files.filter (qualifies hugeCheckSize) = f :: rest →
    pathExists (fs.makedirs (expanduser output_dir))
        (hfFinalPath output_dir repo_id) = false →
    ∃ q, fluxLoop repo_id output_dir files none fs tr =
      (some (q, hfFinalPath output_dir repo_id),
       (fs.makedirs (expanduser output_dir)).writeFile
         (hfFinalPath output_dir repo_id),
       tr ++ [Op.hfDownload repo_id f.path tempDirName,
              Op.moveFile (pathJoin tempDirName f.path)
                (hfFinalPath output_dir repo_id)]) := by
  induction files with
  | nil =>
      intro fs tr f rest hfil hfp
      simp at hfil
  | cons g grest ih =>
      intro fs tr f rest hfil hfp
      by_cases hq : qualifies hugeCheckSize g = true
      · rw [List.filter_cons_of_pos hq] at hfil
        injection hfil with hgf hrest
        subst hgf
        rw [fluxLoop_cons_pos hq]
        have hdfh : download_from_huggingface repo_id g.path output_dir fs =
            (hfFinalPath output_dir repo_id,
             (fs.makedirs (expanduser output_dir)).writeFile
               (hfFinalPath output_dir repo_id),
             [Op.hfDownload repo_id g.path tempDirName,
              Op.moveFile (pathJoin tempDirName g.path)
                (hfFinalPath output_dir repo_id)]) := by
          simp [download_from_huggingface, hfp]
        rw [hdfh]
        have hfp2 : pathExists
            ((fs.makedirs (expanduser output_dir)).writeFile
              (hfFinalPath output_dir repo_id))
            (hfFinalPath output_dir repo_id) = true :=
          Fs.pathExists_writeFile_self _ _
        have hld2 : ((fs.makedirs (expanduser output_dir)).writeFile
            (hfFinalPath output_dir repo_id)).dirs.contains
            (expanduser output_dir) = true := by
          rw [Fs.writeFile_dirs]
          exact Fs.contains_makedirs_self fs _
        obtain ⟨q, hq2⟩ := fluxLoop_saturated repo_id output_dir grest g.path
          ((fs.makedirs (expanduser output_dir)).writeFile
            (hfFinalPath output_dir repo_id))
          (tr ++ [Op.hfDownload repo_id g.path tempDirName,
                  Op.moveFile (pathJoin tempDirName g.path)
                    (hfFinalPath output_dir repo_id)]) hfp2 hld2
        exact ⟨q, hq2⟩
      · rw [List.filter_cons_of_neg hq] at hfil
        rw [fluxLoop_cons_neg hq]
        exact ih fs tr f rest hfil hfp

/-- C5 counterexample: with two qualifying files of 11 GiB and 12 GiB in
listing order, the File Selector logic at the huge threshold picks the
12 GiB file, yet download_flux_unet performs its only single-file
download on the 11 GiB file — the first in listing order, not the
selected one. -/
theorem download_flux_unet_not_selector_choice :
    selectLoop hugeCheckSize none
        [⟨"a.safetensors", some (11 * giB)⟩, ⟨"b.safetensors", some (12 * giB)⟩] =
      some ⟨"b.safetensors", some (12 * giB)⟩ ∧
    (download_flux_unet "org/model" "/out"
        ⟨fun _ => [⟨"a.safetensors", some (11 * giB)⟩,
                   ⟨"b.safetensors", some (12 * giB)⟩], fun _ => 200⟩
        ⟨[], []⟩).2.2.filter Op.isHfDownload =
      [Op.hfDownload "org/model" "a.safetensors" tempDirName] ∧
    (download_flux_unet "org/model" "/out"
        ⟨fun _ => [⟨"a.safetensors", some (11 * giB)⟩,
                   ⟨"b.safetensors", some (12 * giB)⟩], fun _ => 200⟩
        ⟨[], []⟩).1 = Except.ok (hfFinalPath "/out" "org/model") :=
  ⟨by decide, by decide, by decide⟩

/-- C5 (amended): download_flux_unet fails with the no-qualifying-file
error exactly when no listing entry has a .safetensors suffix and a size
over 10 GiB; otherwise, starting from a state where the derived
destination file is absent, it downloads exactly the first qualifying
entry in listing order via the single-file fetch path (later qualifying
entries are skipped, because the destination name depends only on the
repo id and already exists) and returns the destination path. -/
theorem download_flux_unet_first_qualifying (repo_id output_dir : String)
    (env : Env) (fs : Fs) :
    ((download_flux_unet repo_id output_dir env fs).1 =
        Except.error (DlError.noQualifyingFile repo_id) ↔
      (env.listing repo_id).filter (qualifies hugeCheckSize) = []) ∧
    (∀ f rest,
      (env.listing repo_id).filter (qualifies hugeCheckSize) = f :: rest →
      pathExists (fs.makedirs (expanduser output_dir))
          (hfFinalPath output_dir repo_id) = false →
      (download_flux_unet repo_id output_dir env fs).1 =
        Except.ok (hfFinalPath output_dir repo_id) ∧
      (download_flux_unet repo_id output_dir env fs).2.2.filter Op.isHfDownload =
        [Op.hfDownload repo_id f.path tempDirName]) := by
  constructor
  · have hval := fluxLoop_fst_none_iff repo_id output_dir (env.listing repo_id)
      none fs [Op.listRepo repo_id]
    rcases hE : fluxLoop repo_id output_dir (env.listing repo_id) none fs
        [Op.listRepo repo_id] with ⟨acc, fs1, tr⟩
    rw [hE] at hval
    simp only [true_and] at hval
    simp only [download_flux_unet]
    rw [hE]
    cases acc with
    | none =>
        constructor
        · intro _
          exact hval.mp rfl
        · intro _
          rfl
    | some pair =>
        rcases pair with ⟨a, b⟩
        constructor
        · intro hcontra
          exact absurd hcontra (by simp)
        · intro hemp
          exact absurd (hval.mpr hemp) (by simp)
  · intro f rest hfil hfp
    obtain ⟨q, hq2⟩ := fluxLoop_first_download repo_id output_dir
      (env.listing repo_id) fs [Op.listRepo repo_id] f rest hfil hfp
    simp only [download_flux_unet]
    rw [hq2]
    constructor
    · rfl
    · simp [Op.isHfDownload]

/-- Witness for the amended C5: one qualifying 11 GiB file, fresh state;
the fetch returns the destination path and the only single-file download
in the trace is that file. -/
theorem download_flux_unet_first_qualifying_witness :
    (download_flux_unet "org/model" "/out"
        ⟨fun _ => [⟨"a.safetensors", some (11 * giB)⟩], fun _ => 200⟩
        ⟨[], []⟩).1 = Except.ok (hfFinalPath "/out" "org/model") ∧
    (download_flux_unet "org/model" "/out"
        ⟨fun _ => [⟨"a.safetensors", some (11 * giB)⟩], fun _ => 200⟩
        ⟨[], []⟩).2.2.filter Op.isHfDownload =
      [Op.hfDownload "org/model" "a.safetensors" tempDirName] :=
  (download_flux_unet_first_qualifying "org/model" "/out"
      ⟨fun _ => [⟨"a.safetensors", some (11 * giB)⟩], fun _ => 200⟩ ⟨[], []⟩).2
    ⟨"a.safetensors", some (11 * giB)⟩ [] (by decide) (by decide)

/-- C6: when the deterministic cache path already exists, the dataset
fetch (s3 and hf formats) and the model fetch (both base-model variants)
return that path unchanged, record no operation at all — in particular
no network call — and leave the filesystem exactly as it was. -/
theorem cache_hit_is_noop (task_id u dir repo sr : String) (env : Env)
    (fs : Fs) (hdir : fs.dirs.contains dir = true) :
    (pathExists fs (pathJoin dir (task_id ++ "_train_data.json")) = true →
      download_text_dataset task_id u FileFormat.S3.value dir env fs =
        (Except.ok (pathJoin dir (task_id ++ "_train_data.json"), FileFormat.S3.value),
         fs, [])) ∧
    (pathExists fs (pathJoin dir (sanDash u)) = true →
      download_text_dataset task_id u FileFormat.HF.value dir env fs =
        (Except.ok (pathJoin dir (sanDash u), FileFormat.HF.value), fs, [])) ∧
    (pathExists fs (modelSavePath sr repo) = true →
      download_base_model repo sr env fs =
        (Except.ok (modelSavePath sr repo), fs, [])) ∧
    (pathExists fs (modelSavePath sr repo) = true →
      download_axolotl_base_model repo sr env fs =
        (Except.ok (modelSavePath sr repo), fs, [])) := by
  refine ⟨?_, ?_, ?_, ?_⟩
  · intro h1
    simp [download_text_dataset, Fs.makedirs_of_contains hdir, h1]
  · intro h2
    simp [download_text_dataset, Fs.makedirs_of_contains hdir, h2,
      FileFormat.value]
  · intro h3
    simp [download_base_model, h3]
  · intro h4
    simp [download_axolotl_base_model, h4]

/-- Witness for C6: with the s3 cache file and the model cache directory
both present, both fetches return the existing path with an empty trace
and an unchanged filesystem, against an environment that would answer
404 to everything. -/
theorem cache_hit_is_noop_witness :
    download_text_dataset "t1" "org/data" FileFormat.S3.value "/d"
        ⟨fun _ => [], fun _ => 404⟩
        ⟨["/d", "/m/org--model"], ["/d/t1_train_data.json"]⟩ =
      (Except.ok ("/d/t1_train_data.json", FileFormat.S3.value),
       ⟨["/d", "/m/org--model"], ["/d/t1_train_data.json"]⟩, []) ∧
    download_base_model "org/model" "/m" ⟨fun _ => [], fun _ => 404⟩
        ⟨["/d", "/m/org--model"], ["/d/t1_train_data.json"]⟩ =
      (Except.ok (modelSavePath "/m" "org/model"),
       ⟨["/d", "/m/org--model"], ["/d/t1_train_data.json"]⟩, []) :=
  ⟨(cache_hit_is_noop "t1" "org/data" "/d" "org/model" "/m"
      ⟨fun _ => [], fun _ => 404⟩
      ⟨["/d", "/m/org--model"], ["/d/t1_train_data.json"]⟩ (by decide)).1
      (by decide),
   (cache_hit_is_noop "t1" "org/data" "/d" "org/model" "/m"
      ⟨fun _ => [], fun _ => 404⟩
      ⟨["/d", "/m/org--model"], ["/d/t1_train_data.json"]⟩ (by decide)).2.2.1
      (by decide)⟩

/-- C7: the single-file fetch is idempotent at destination-file
granularity. When the destination file already exists it performs no
operation and returns that path; when it is absent the trace is exactly
one download into the temporary directory followed by one move of the
downloaded file into the final path; and running the fetch twice from
any state gives the same result and the same filesystem as running it
once, with an empty second trace. -/
theorem download_from_huggingface_idempotent (repo_id filename local_dir : String)
    (fs : Fs) :
    (pathExists (fs.makedirs (expanduser local_dir))
        (hfFinalPath local_dir repo_id) = true →
      download_from_huggingface repo_id filename local_dir fs =
        (hfFinalPath local_dir repo_id, fs.makedirs (expanduser local_dir), [])) ∧
    (pathExists (fs.makedirs (expanduser local_dir))
        (hfFinalPath local_dir repo_id) = false →
      download_from_huggingface repo_id filename local_dir fs =
        (hfFinalPath local_dir repo_id,
         (fs.makedirs (expanduser local_dir)).writeFile
           (hfFinalPath local_dir repo_id),
         [Op.hfDownload repo_id filename tempDirName,
          Op.moveFile (pathJoin tempDirName filename)
            (hfFinalPath local_dir repo_id)])) ∧
    (download_from_huggingface repo_id filename local_dir
        (download_from_huggingface repo_id filename local_dir fs).2.1 =
      ((download_from_huggingface repo_id filename local_dir fs).1,
       (download_from_huggingface repo_id filename local_dir fs).2.1, [])) := by
  refine ⟨?_, ?_, ?_⟩
  · intro h
    simp [download_from_huggingface, h]
  · intro h
    simp [download_from_huggingface, h]
  · by_cases hb : pathExists (fs.makedirs (expanduser local_dir))
        (hfFinalPath local_dir repo_id) = true
    · have h1 : download_from_huggingface repo_id filename local_dir fs =
          (hfFinalPath local_dir repo_id, fs.makedirs (expanduser local_dir), []) := by
        simp [download_from_huggingface, hb]
      rw [h1]
      have h2 : (fs.makedirs (expanduser local_dir)).makedirs (expanduser local_dir) =
          fs.makedirs (expanduser local_dir) := Fs.makedirs_makedirs _ _
      simp [download_from_huggingface, h2, hb]
    · have hbf : pathExists (fs.makedirs (expanduser local_dir))
          (hfFinalPath local_dir repo_id) = false := by
        simpa using hb
      have h1 : download_from_huggingface repo_id filename local_dir fs =
          (hfFinalPath local_dir repo_id,
           (fs.makedirs (expanduser local_dir)).writeFile
             (hfFinalPath local_dir repo_id),
           [Op.hfDownload repo_id filename tempDirName,
            Op.moveFile (pathJoin tempDirName filename)
              (hfFinalPath local_dir repo_id)]) := by
        simp [download_from_huggingface, hbf]
      rw [h1]
      have hld1 : ((fs.makedirs (expanduser local_dir)).writeFile
          (hfFinalPath local_dir repo_id)).dirs.contains (expanduser local_dir) = true := by
        rw [Fs.writeFile_dirs]
        exact Fs.contains_makedirs_self _ _
      have hmk : ((fs.makedirs (expanduser local_dir)).writeFile
          (hfFinalPath local_dir repo_id)).makedirs (expanduser local_dir) =
          (fs.makedirs (expanduser local_dir)).writeFile
            (hfFinalPath local_dir repo_id) := Fs.makedirs_of_contains hld1
      have hpe : pathExists ((fs.makedirs (expanduser local_dir)).writeFile
          (hfFinalPath local_dir repo_id)) (hfFinalPath local_dir repo_id) = true :=
        Fs.pathExists_writeFile_self _ _
      simp [download_from_huggingface, hmk, hpe]

/-- Witness for C7 with the destination file already present: the fetch
returns the final path with an empty trace. -/
theorem download_from_huggingface_idempotent_witness :
    download_from_huggingface "org/model" "model.safetensors" "/out"
        ⟨["/out"], ["/out/org_model.safetensors"]⟩ =
      (hfFinalPath "/out" "org/model",
       Fs.makedirs ⟨["/out"], ["/out/org_model.safetensors"]⟩ (expanduser "/out"),
       []) :=
  (download_from_huggingface_idempotent "org/model" "model.safetensors" "/out"
      ⟨["/out"], ["/out/org_model.safetensors"]⟩).1 (by decide)

/-- C8: the transport raises an error carrying the HTTP status if and
only if the GET answers a status other than 200; on status 200 it writes
the body at the computed local file path and returns that path, after
exactly one GET in either case. -/
theorem download_s3_file_status_iff (u : String) (sp : Option String)
    (tmp : String) (env : Env) (fs : Fs) :
    (env.httpStatus u = 200 →
      download_s3_file u sp tmp env fs =
        (Except.ok (s3LocalPath u sp tmp fs),
         fs.writeFile (s3LocalPath u sp tmp fs), [Op.httpGet u])) ∧
    (env.httpStatus u ≠ 200 →
      download_s3_file u sp tmp env fs =
        (Except.error (DlError.downloadFailed (env.httpStatus u)), fs,
         [Op.httpGet u])) ∧
    ((download_s3_file u sp tmp env fs).1 =
        Except.error (DlError.downloadFailed (env.httpStatus u)) ↔
      env.httpStatus u ≠ 200) := by
  have hpos : env.httpStatus u = 200 →
      download_s3_file u sp tmp env fs =
        (Except.ok (s3LocalPath u sp tmp fs),
         fs.writeFile (s3LocalPath u sp tmp fs), [Op.httpGet u]) := by
    intro h
    simp [download_s3_file, h]
  have hneg : env.httpStatus u ≠ 200 →
      download_s3_file u sp tmp env fs =
        (Except.error (DlError.downloadFailed (env.httpStatus u)), fs,
         [Op.httpGet u]) := by
    intro h
    simp [download_s3_file, h]
  refine ⟨hpos, hneg, ?_⟩
  by_cases h : env.httpStatus u = 200
  · rw [hpos h]
    constructor
    · intro hc
      exact absurd hc (by simp)
    · intro hc
      exact absurd h hc
  · rw [hneg h]
    exact ⟨fun _ => h, fun _ => rfl⟩

/-- Witness for C8: a 404 answer raises the status-carrying error while
a 200 answer writes the file at the computed path and returns it. -/
theorem download_s3_file_status_iff_witness :
    download_s3_file "https://ex.com/data.json" none "/tmp"
        ⟨fun _ => [], fun _ => 404⟩ ⟨[], []⟩ =
      (Except.error (DlError.downloadFailed 404), ⟨[], []⟩,
       [Op.httpGet "https://ex.com/data.json"]) ∧
    download_s3_file "https://ex.com/data.json" none "/tmp"
        ⟨fun _ => [], fun _ => 200⟩ ⟨[], []⟩ =
      (Except.ok "/tmp/data.json", ⟨[], ["/tmp/data.json"]⟩,
       [Op.httpGet "https://ex.com/data.json"]) :=
  ⟨(download_s3_file_status_iff "https://ex.com/data.json" none "/tmp"
      ⟨fun _ => [], fun _ => 404⟩ ⟨[], []⟩).2.1 (by decide),
   (download_s3_file_status_iff "https://ex.com/data.json" none "/tmp"
      ⟨fun _ => [], fun _ => 200⟩ ⟨[], []⟩).1 (by decide)⟩

/-- C9: for an s3 dataset request with no cache entry and a 200 answer,
the fetch performs one GET, copies the body into the dataset directory
under the name built from the task id (not from the URL), and returns
that path; a rerun from the resulting state returns the same path with
an empty trace and an unchanged filesystem. -/
theorem s3_dataset_end_to_end (task_id u dir : String) (env : Env) (fs : Fs)
    (hdir : fs.dirs.contains dir = true)
    (h200 : env.httpStatus u = 200)
    (habs : pathExists fs (pathJoin dir (task_id ++ "_train_data.json")) = false) :
    download_text_dataset task_id u FileFormat.S3.value dir env fs =
      (Except.ok (pathJoin dir (task_id ++ "_train_data.json"), FileFormat.S3.value),
       (fs.writeFile (s3LocalPath u none "/tmp" fs)).writeFile
         (pathJoin dir (task_id ++ "_train_data.json")),
       [Op.httpGet u,
        Op.copyFile (s3LocalPath u none "/tmp" fs)
          (pathJoin dir (task_id ++ "_train_data.json"))]) ∧
    download_text_dataset task_id u FileFormat.S3.value dir env
        ((fs.writeFile (s3LocalPath u none "/tmp" fs)).writeFile
          (pathJoin dir (task_id ++ "_train_data.json"))) =
      (Except.ok (pathJoin dir (task_id ++ "_train_data.json"), FileFormat.S3.value),
       (fs.writeFile (s3LocalPath u none "/tmp" fs)).writeFile
         (pathJoin dir (task_id ++ "_train_data.json")), []) := by
  constructor
  · simp [download_text_dataset, download_s3_file,
      Fs.makedirs_of_contains hdir, habs, h200]
  · have hdir1 : ((fs.writeFile (s3LocalPath u none "/tmp" fs)).writeFile
        (pathJoin dir (task_id ++ "_train_data.json"))).dirs.contains dir = true := by
      rw [Fs.writeFile_dirs, Fs.writeFile_dirs]
      exact hdir
    have hpe : pathExists ((fs.writeFile (s3LocalPath u none "/tmp" fs)).writeFile
        (pathJoin dir (task_id ++ "_train_data.json")))
        (pathJoin dir (task_id ++ "_train_data.json")) = true :=
      Fs.pathExists_writeFile_self _ _
    simp [download_text_dataset, Fs.makedirs_of_contains hdir1, hpe]

/-- Witness for C9 at the spec scenario: downloading
https with ex.com/data.json places the file at
/cache/datasets/t1_train_data.json and a rerun is a network-free no-op
returning the same path. -/
theorem s3_dataset_end_to_end_witness :
    download_text_dataset "t1" "https://ex.com/data.json" FileFormat.S3.value
        "/cache/datasets" ⟨fun _ => [], fun _ => 200⟩ ⟨["/cache/datasets"], []⟩ =
      (Except.ok ("/cache/datasets/t1_train_data.json", FileFormat.S3.value),
       ⟨["/cache/datasets"], ["/cache/datasets/t1_train_data.json", "/tmp/data.json"]⟩,
       [Op.httpGet "https://ex.com/data.json",
        Op.copyFile "/tmp/data.json" "/cache/datasets/t1_train_data.json"]) ∧
    download_text_dataset "t1" "https://ex.com/data.json" FileFormat.S3.value
        "/cache/datasets" ⟨fun _ => [], fun _ => 200⟩
        ⟨["/cache/datasets"], ["/cache/datasets/t1_train_data.json", "/tmp/data.json"]⟩ =
      (Except.ok ("/cache/datasets/t1_train_data.json", FileFormat.S3.value),
       ⟨["/cache/datasets"], ["/cache/datasets/t1_train_data.json", "/tmp/data.json"]⟩,
       []) :=
  s3_dataset_end_to_end "t1" "https://ex.com/data.json" "/cache/datasets"
    ⟨fun _ => [], fun _ => 200⟩ ⟨["/cache/datasets"], []⟩
    (by decide) (by decide) (by decide)

/-- C10: whenever the model cache directory exists, download_base_model
returns that directory path with no operations, regardless of how it was
populated; in particular, on a fresh cache with one qualifying file the
first run returns the safetensors file path inside the directory while a
second run returns the directory path itself, so the return value is not
stable across repeated invocations. -/
theorem download_base_model_return_unstable (repo sr : String) (env : Env)
    (fs : Fs) (hex : pathExists fs (modelSavePath sr repo) = true) :
    download_base_model repo sr env fs =
      (Except.ok (modelSavePath sr repo), fs, []) ∧
    (download_base_model "org/model" "/cache/models"
        ⟨fun _ => [⟨"model.safetensors", some (12 * giB)⟩], fun _ => 200⟩
        ⟨["/cache/models"], []⟩).1 =
      Except.ok "/cache/models/org--model/org_model.safetensors" ∧
    (download_base_model "org/model" "/cache/models"
        ⟨fun _ => [⟨"model.safetensors", some (12 * giB)⟩], fun _ => 200⟩
        (download_base_model "org/model" "/cache/models"
          ⟨fun _ => [⟨"model.safetensors", some (12 * giB)⟩], fun _ => 200⟩
          ⟨["/cache/models"], []⟩).2.1).1 =
      Except.ok "/cache/models/org--model" ∧
    ("/cache/models/org--model/org_model.safetensors" : String) ≠
      "/cache/models/org--model" := by
  refine ⟨?_, by decide, by decide, by decide⟩
  simp [download_base_model, hex]

/-- Witness for C10 with an existing cache directory: the fetch returns
the directory path with no operations. -/
theorem download_base_model_return_unstable_witness :
    download_base_model "o/m" "/r" ⟨fun _ => [], fun _ => 200⟩
        ⟨["/r/o--m"], []⟩ =
      (Except.ok (modelSavePath "/r" "o/m"), ⟨["/r/o--m"], []⟩, []) :=
  (download_base_model_return_unstable "o/m" "/r" ⟨fun _ => [], fun _ => 200⟩
      ⟨["/r/o--m"], []⟩ (by decide)).1
